import Mathlib

set_option maxRecDepth 4000

/-! Shallow embedding of the helm release lifecycle manager of
`integrations/helm/release/release.go`: release naming, release query,
release status policy, release mutation, and resource annotation.
The external helm client (tiller store), the go-kit logger and the
kubectl subprocess are modelled as explicit function-valued fields of
the `Release` structure; every effectful method additionally returns
the list of store/annotation operations it performed, so that claims
about which calls are (not) issued can be stated. -/

namespace HelmRelease

/-- Release status codes, with the numeric values of the proto enum as
listed in the comment table inside `canDelete`. -/
inductive StatusCode
  | unknown
  | deployed
  | deleted
  | superseded
  | failed
  | deleting
  | pending_install
  | pending_upgrade
  | pending_rollback
deriving DecidableEq

/-- Numeric value of a status code (the proto enum number). -/
def StatusCode.num : StatusCode → Nat
  | .unknown => 0
  | .deployed => 1
  | .deleted => 2
  | .superseded => 3
  | .failed => 4
  | .deleting => 5
  | .pending_install => 6
  | .pending_upgrade => 7
  | .pending_rollback => 8

/-- String rendering of a status code (`status.Code.String()`). -/
def StatusCode.str : StatusCode → String
  | .unknown => "UNKNOWN"
  | .deployed => "DEPLOYED"
  | .deleted => "DELETED"
  | .superseded => "SUPERSEDED"
  | .failed => "FAILED"
  | .deleting => "DELETING"
  | .pending_install => "PENDING_INSTALL"
  | .pending_upgrade => "PENDING_UPGRADE"
  | .pending_rollback => "PENDING_ROLLBACK"

/-- The release store's view of a release (`hapi_release.Release`
together with its status info): name, namespace (`nspace`, since
`namespace` is a Lean keyword), status code and rendered manifest. -/
structure ReleaseRecord where
  name : String
  nspace : String
  statusCode : StatusCode
  manifest : String
deriving DecidableEq

/-- `DeployInfo` from the source: a release name entry of `GetCurrent`. -/
structure DeployInfo where
  name : String
deriving DecidableEq

/-- `InstallOptions` from the source. -/
structure InstallOptions where
  dryRun : Bool
  reuseName : Bool
deriving DecidableEq

/-- `Config` from the source. -/
structure Config where
  chartsPath : String

/-- `Action` is a string type in the source; only the two constants
below are valid, every other string hits the default branch. -/
abbrev Action := String

def InstallAction : Action := "CREATE"

def UpgradeAction : Action := "UPDATE"

/-- The spec of a `FluxHelmRelease` custom resource: release-name
override, chart git path, and the value overrides. The overrides are
modelled by the outcome of their YAML serialization
(`fhr.Spec.Values.YAML()`): either the serialized string or the
serialization error. -/
structure FluxHelmReleaseSpec where
  releaseName : String
  chartGitPath : String
  values : Except String String

/-- The `FluxHelmRelease` custom resource: namespace (`nspace`),
name, and spec. -/
structure FluxHelmRelease where
  nspace : String
  name : String
  spec : FluxHelmReleaseSpec

/-- The helm client interface consumed by the core, as function-valued
fields: each operation either fails with an error message or returns
its result. -/
structure HelmClient where
  releaseStatus : String → Except String StatusCode
  releaseContent : String → Except String ReleaseRecord
  listReleases : Except String (List ReleaseRecord)
  installRelease : String → String → String → String → Bool → Bool → Except String ReleaseRecord
  updateRelease : String → String → String → Bool → Except String ReleaseRecord
  deleteRelease : String → Bool → Except String Unit

/-- The `Release` component: the go-kit logger (whose return value is
an optional sink error), the helm client, the config, and the kubectl
collaborator used by `annotateResources` (namespace, manifest, label
argument to an optional error). -/
structure Release where
  logger : List String → Option String
  client : HelmClient
  config : Config
  kubectl : String → String → String → Option String

/-- Observable operations issued against the store or the kubectl
collaborator, recorded as a trace by the effectful methods. -/
inductive Op
  | releaseStatus (name : String)
  | releaseContent (name : String)
  | listReleases
  | installRelease (chartDir nspace vals name : String) (dryRun reuseName : Bool)
  | updateRelease (name chartDir vals : String) (dryRun : Bool)
  | deleteRelease (name : String) (purge : Bool)
  | annotate (nspace manifest labelArg : String)
deriving DecidableEq

/-- Whether an operation is the store's purge-delete. -/
def Op.isDelete : Op → Bool
  | .deleteRelease _ _ => true
  | _ => false

/-- Whether an operation is the annotation step. -/
def Op.isAnnotate : Op → Bool
  | .annotate _ _ _ => true
  | _ => false

/-- Whether an operation mutates the store. -/
def Op.isStoreMutation : Op → Bool
  | .installRelease _ _ _ _ _ _ => true
  | .updateRelease _ _ _ _ => true
  | .deleteRelease _ _ => true
  | _ => false

/-- `GetReleaseName`: the release-name override when non-empty,
otherwise `namespace-name` with the namespace defaulted to
`"default"` when empty. -/
def GetReleaseName (fhr : FluxHelmRelease) : String :=
  let nspace := if fhr.nspace = "" then "default" else fhr.nspace
  if fhr.spec.releaseName = "" then nspace ++ "-" ++ fhr.name
  else fhr.spec.releaseName

/-- `GetDeployedRelease`: queries the release content; propagates a
store error; returns the record when its status is DEPLOYED and
`(none, none)` otherwise. -/
def Release.GetDeployedRelease (r : Release) (name : String) :
    Option ReleaseRecord × Option String :=
  match r.client.releaseContent name with
  | .error e => (none, some e)
  | .ok rls =>
      if rls.statusCode = .deployed then (some rls, none) else (none, none)

/-- `canDelete`: queries the release status and applies the fixed
numeric table from the source (`case 1, 4`, `case 2`, default). -/
def Release.canDelete (r : Release) (name : String) :
    (Bool × Option String) × List Op :=
  match r.client.releaseStatus name with
  | .error e => ((false, some e), [Op.releaseStatus name])
  | .ok code =>
      if code.num = 1 ∨ code.num = 4 then
        ((true, none), [Op.releaseStatus name])
      else if code.num = 2 then
        ((false, none), [Op.releaseStatus name])
      else
        ((false, some ("Release (" ++ name ++ ") with status " ++ code.str
            ++ " cannot be deleted")), [Op.releaseStatus name])

/-- `filepath.Join` modelled as interleaving separators between the
non-empty components. -/
def filepathJoin (parts : List String) : String :=
  String.intercalate "/" (parts.filter fun p => p ≠ "")

/-- The `ErrChartGitPathMissing` format string applied to a name. -/
def ErrChartGitPathMissing (name : String) : String :=
  "Chart deploy configuration (" ++ name ++ ") has empty Chart git path"

/-- Modelled from the spec: the fixed owner-reference label key
(`fluxk8s.AntecedentAnnotation`, defined outside the embedded source). -/
def antecedentLabelKey : String := "flux.weave.works/antecedent"

/-- Modelled from the spec: `flux.MakeResourceID` (defined outside the
embedded source) renders a stable resource identity string from a
namespace, a kind and a name. -/
def MakeResourceID (nspace kind name : String) : String :=
  nspace ++ ":" ++ kind ++ "/" ++ name

/-- `fhrResourceID`: the resource identity of a `FluxHelmRelease`,
built from its raw namespace and name with the kind fixed to
`"FluxHelmRelease"`. -/
def fhrResourceID (fhr : FluxHelmRelease) : String :=
  MakeResourceID fhr.nspace "FluxHelmRelease" fhr.name

/-- `annotateResources`: labels every resource of the release's
manifest, in the namespace recorded in the release record, with the
owner-reference key/value pair, via the kubectl collaborator. -/
def Release.annotateResources (r : Release) (release : ReleaseRecord)
    (fhr : FluxHelmRelease) : Option String × List Op :=
  let labelArg := antecedentLabelKey ++ "=" ++ fhrResourceID fhr
  (r.kubectl release.nspace release.manifest labelArg,
   [Op.annotate release.nspace release.manifest labelArg])

/-- `Install`: validates the chart git path, resolves the namespace and
chart directory, serializes the value overrides, then dispatches on the
action; on a successful non-dry-run mutation it annotates the resulting
release and returns the release together with the annotation error. -/
def Release.Install (r : Release) (repoDir releaseName : String)
    (fhr : FluxHelmRelease) (action : Action) (opts : InstallOptions) :
    (Option ReleaseRecord × Option String) × List Op :=
  let chartPath := fhr.spec.chartGitPath
  if chartPath = "" then
    ((none, some (ErrChartGitPathMissing fhr.name)), [])
  else
    let nspace := if fhr.nspace = "" then "default" else fhr.nspace
    let chartDir := filepathJoin [repoDir, r.config.chartsPath, chartPath]
    match fhr.spec.values with
    | .error e => ((none, some e), [])
    | .ok strVals =>
        if action = InstallAction then
          match r.client.installRelease chartDir nspace strVals releaseName
              opts.dryRun opts.reuseName with
          | .error e =>
              ((none, some e),
               [Op.installRelease chartDir nspace strVals releaseName
                  opts.dryRun opts.reuseName])
          | .ok res =>
              if opts.dryRun then
                ((some res, none),
                 [Op.installRelease chartDir nspace strVals releaseName
                    opts.dryRun opts.reuseName])
              else
                let a := r.annotateResources res fhr
                ((some res, a.1),
                 Op.installRelease chartDir nspace strVals releaseName
                    opts.dryRun opts.reuseName :: a.2)
        else if action = UpgradeAction then
          match r.client.updateRelease releaseName chartDir strVals
              opts.dryRun with
          | .error e =>
              ((none, some e),
               [Op.updateRelease releaseName chartDir strVals opts.dryRun])
          | .ok res =>
              if opts.dryRun then
                ((some res, none),
                 [Op.updateRelease releaseName chartDir strVals opts.dryRun])
              else
                let a := r.annotateResources res fhr
                ((some res, a.1),
                 Op.updateRelease releaseName chartDir strVals opts.dryRun :: a.2)
        else
          ((none, some ("Valid install options: CREATE, UPDATE. Provided: "
              ++ action)), [])

/-- `Delete`: consults `canDelete`; when not deletable it returns the
policy error (or nil in the already-deleted case) without touching the
store; otherwise it issues the purge-delete and reports its error. -/
def Release.Delete (r : Release) (name : String) : Option String × List Op :=
  let c := r.canDelete name
  if c.1.1 = false then
    match c.1.2 with
    | some e => (some e, c.2)
    | none => (none, c.2)
  else
    match r.client.deleteRelease name true with
    | .error e => (some e, c.2 ++ [Op.deleteRelease name true])
    | .ok _ => (none, c.2 ++ [Op.deleteRelease name true])

/-- The `map[string][]DeployInfo` of `GetCurrent`, as an association
list with Go map semantics for lookup and assignment. -/
abbrev DeployMap := List (String × List DeployInfo)

/-- Lookup of a key in the map, `none` when absent. -/
def mapLookup (m : DeployMap) (k : String) : Option (List DeployInfo) :=
  match m with
  | [] => none
  | (k0, v0) :: rest => if k0 = k then some v0 else mapLookup rest k

/-- Go map read `m[k]`: the stored slice, or the nil slice when the key
is absent. -/
def mapGet (m : DeployMap) (k : String) : List DeployInfo :=
  (mapLookup m k).getD []

/-- Go map assignment `m[k] = v`. -/
def mapSet (m : DeployMap) (k : String) (v : List DeployInfo) : DeployMap :=
  match m with
  | [] => [(k, v)]
  | (k0, v0) :: rest =>
      if k0 = k then (k, v) :: rest else (k0, v0) :: mapSet rest k v

/-- The loop body of `GetCurrent`: append each release's name to its
namespace's slice. -/
def buildReleaseMap (rels : List ReleaseRecord) (acc : DeployMap) : DeployMap :=
  match rels with
  | [] => acc
  | rel :: rest =>
      buildReleaseMap rest
        (mapSet acc rel.nspace (mapGet acc rel.nspace ++ [DeployInfo.mk rel.name]))

/-- `GetCurrent`: lists all releases and groups them by namespace. On a
list failure it returns `nil` together with the return value of the
logger call, exactly as the source does. -/
def Release.GetCurrent (r : Release) : Option DeployMap × Option String :=
  match r.client.listReleases with
  | .error e => (none, r.logger ["error", e])
  | .ok rels => (some (buildReleaseMap rels []), none)

/-! Concrete fixtures used by witnesses and counterexamples. -/

/-- A helm client all of whose operations fail; fixtures override the
operations they exercise. -/
def errClient : HelmClient :=
  { releaseStatus := fun _ => Except.error "stub"
    releaseContent := fun _ => Except.error "stub"
    listReleases := Except.error "stub"
    installRelease := fun _ _ _ _ _ _ => Except.error "stub"
    updateRelease := fun _ _ _ _ => Except.error "stub"
    deleteRelease := fun _ _ => Except.error "stub" }

/-- A release component over a given client, with a logger whose sink
never fails and a kubectl collaborator that always succeeds. -/
def stubRelease (c : HelmClient) : Release :=
  { logger := fun _ => none
    client := c
    config := { chartsPath := "charts" }
    kubectl := fun _ _ _ => none }

/-- A release whose status query reports SUPERSEDED. -/
def supersededRelease : Release :=
  stubRelease { errClient with
    releaseStatus := fun _ => Except.ok StatusCode.superseded }

/-- A release whose content query reports the release as not found. -/
def notFoundRelease : Release :=
  stubRelease { errClient with
    releaseContent := fun name => Except.error ("release: " ++ name ++ " not found") }

/-- A deployed release record. -/
def deployedRecord : ReleaseRecord :=
  { name := "rel", nspace := "ns1", statusCode := StatusCode.deployed,
    manifest := "kind: Deployment" }

/-- A release whose content query returns `deployedRecord`. -/
def contentRelease : Release :=
  stubRelease { errClient with
    releaseContent := fun _ => Except.ok deployedRecord }

/-- A release whose list operation fails with a store error. -/
def listFailRelease : Release :=
  stubRelease { errClient with listReleases := Except.error "boom" }

/-! Theorems settling the claims. -/

/-- C7: `GetReleaseName` is a pure function of (namespace, name,
override): it returns the override when non-empty, otherwise
`namespace-name` with the namespace defaulted when empty; it is
deterministic in those three fields; and empty override, empty
namespace and name `foo` yield exactly `default-foo`. -/
theorem getReleaseName_spec :
    (∀ fhr : FluxHelmRelease, fhr.spec.releaseName ≠ "" →
        GetReleaseName fhr = fhr.spec.releaseName) ∧
    (∀ fhr : FluxHelmRelease, fhr.spec.releaseName = "" →
        GetReleaseName fhr =
          (if fhr.nspace = "" then "default" else fhr.nspace) ++ "-" ++ fhr.name) ∧
    (∀ a b : FluxHelmRelease, a.nspace = b.nspace → a.name = b.name →
        a.spec.releaseName = b.spec.releaseName →
        GetReleaseName a = GetReleaseName b) ∧
    GetReleaseName ⟨"", "foo", ⟨"", "chart", Except.ok ""⟩⟩ = "default-foo" := by
  refine ⟨?_, ?_, ?_, rfl⟩
  · intro fhr h
    simp [GetReleaseName, h]
  · intro fhr h
    simp [GetReleaseName, h]
  · intro a b h1 h2 h3
    simp [GetReleaseName, h1, h2, h3]

/-- Witness for C7 at a concrete desired release with an override. -/
theorem getReleaseName_spec_witness :
    GetReleaseName ⟨"ns", "app", ⟨"custom", "chart", Except.ok ""⟩⟩ = "custom" :=
  getReleaseName_spec.1 ⟨"ns", "app", ⟨"custom", "chart", Except.ok ""⟩⟩ (by decide)

/-- C1: `canDelete` returns `(true, none)` for DEPLOYED and FAILED,
`(false, none)` for DELETED, `(false, some e)` with a message naming
the blocking status for every other status code, and `(false, the
store error)` when the status query itself fails. -/
theorem canDelete_spec (r : Release) (name : String) :
    (∀ e, r.client.releaseStatus name = Except.error e →
      (r.canDelete name).1 = (false, some e)) ∧
    (∀ code, r.client.releaseStatus name = Except.ok code →
      (((code = StatusCode.deployed ∨ code = StatusCode.failed) →
          (r.canDelete name).1 = (true, none)) ∧
       (code = StatusCode.deleted → (r.canDelete name).1 = (false, none)) ∧
       (code ≠ StatusCode.deployed → code ≠ StatusCode.failed →
        code ≠ StatusCode.deleted →
          (r.canDelete name).1 =
            (false, some ("Release (" ++ name ++ ") with status " ++ code.str
                ++ " cannot be deleted"))))) := by
  constructor
  · intro e h
    simp [Release.canDelete, h]
  · intro code h
    refine ⟨?_, ?_, ?_⟩
    · rintro (rfl | rfl) <;> simp [Release.canDelete, h, StatusCode.num]
    · rintro rfl
      simp [Release.canDelete, h, StatusCode.num]
    · intro h1 h2 h3
      cases code <;>
        simp_all [Release.canDelete, StatusCode.num, StatusCode.str]

/-- Witness for C1: a SUPERSEDED release is blocked with a message
naming the status. -/
theorem canDelete_spec_witness :
    (supersededRelease.canDelete "rel").1 =
      (false, some ("Release (" ++ "rel" ++ ") with status "
          ++ StatusCode.str StatusCode.superseded ++ " cannot be deleted")) :=
  ((canDelete_spec supersededRelease "rel").2 StatusCode.superseded rfl).2.2
    (by decide) (by decide) (by decide)

/-- C3 counterexample: when the store reports the release as not found
(an error from the content query), `GetDeployedRelease` propagates that
error instead of returning the absent result `(none, none)` the claim
requires. -/
theorem getDeployedRelease_notFound_counterexample :
    notFoundRelease.GetDeployedRelease "foo" =
        (none, some "release: foo not found") ∧
      notFoundRelease.GetDeployedRelease "foo" ≠ (none, none) := by
  exact ⟨rfl, by decide⟩

/-- C3 amended: `GetDeployedRelease` returns the record exactly when
the store lookup succeeds with status DEPLOYED, returns `(none, none)`
for any other status of a successful lookup, and propagates every
store error, including a not-found error. -/
theorem getDeployedRelease_spec (r : Release) (name : String) :
    (∀ e, r.client.releaseContent name = Except.error e →
      r.GetDeployedRelease name = (none, some e)) ∧
    (∀ rls, r.client.releaseContent name = Except.ok rls →
      r.GetDeployedRelease name =
        if rls.statusCode = StatusCode.deployed then (some rls, none)
        else (none, none)) := by
  constructor <;> intro x h <;> simp [Release.GetDeployedRelease, h]

/-- Witness for C3's amended theorem: a deployed record is returned. -/
theorem getDeployedRelease_spec_witness :
    contentRelease.GetDeployedRelease "rel" = (some deployedRecord, none) := by
  have h := (getDeployedRelease_spec contentRelease "rel").2 deployedRecord rfl
  exact h.trans rfl

/-- The status-policy query records exactly one status lookup,
whatever its outcome. -/
theorem canDelete_trace (r : Release) (name : String) :
    (r.canDelete name).2 = [Op.releaseStatus name] := by
  rcases h : r.client.releaseStatus name with e | code
  · simp [Release.canDelete, h]
  · by_cases h1 : code.num = 1 ∨ code.num = 4
    · simp [Release.canDelete, h, h1]
    · by_cases h2 : code.num = 2 <;> simp [Release.canDelete, h, h1, h2]

/-- C4: `Delete` consults `canDelete`: on `(false, none)` it returns
nil without issuing the purge-delete; on `(false, some e)` it returns
`e` without issuing the purge-delete; and when deletable it issues the
purge-delete and returns that operation's error. -/
theorem delete_spec (r : Release) (name : String) :
    ((r.canDelete name).1 = (false, none) →
      r.Delete name = (none, (r.canDelete name).2) ∧
        ∀ op ∈ (r.Delete name).2, op.isDelete = false) ∧
    (∀ e, (r.canDelete name).1 = (false, some e) →
      r.Delete name = (some e, (r.canDelete name).2) ∧
        ∀ op ∈ (r.Delete name).2, op.isDelete = false) ∧
    ((r.canDelete name).1.1 = true →
      r.Delete name =
        ((match r.client.deleteRelease name true with
          | Except.error e => some e
          | Except.ok _ => none),
         (r.canDelete name).2 ++ [Op.deleteRelease name true])) := by
  have ht := canDelete_trace r name
  refine ⟨?_, ?_, ?_⟩
  · intro h
    have hd : r.Delete name = (none, (r.canDelete name).2) := by
      simp [Release.Delete, h]
    refine ⟨hd, ?_⟩
    intro op hop
    rw [hd] at hop
    simp only at hop
    rw [ht] at hop
    simp only [List.mem_singleton] at hop
    subst hop
    rfl
  · intro e h
    have hd : r.Delete name = (some e, (r.canDelete name).2) := by
      simp [Release.Delete, h]
    refine ⟨hd, ?_⟩
    intro op hop
    rw [hd] at hop
    simp only at hop
    rw [ht] at hop
    simp only [List.mem_singleton] at hop
    subst hop
    rfl
  · intro h
    rcases hdel : r.client.deleteRelease name true with e | u <;>
      simp [Release.Delete, h, hdel]

/-- A release whose status query reports DELETED. -/
def deletedStatusRelease : Release :=
  stubRelease { errClient with
    releaseStatus := fun _ => Except.ok StatusCode.deleted }

/-- Witness for C4: deleting an already-deleted release is a nil-error
no-op that never issues the purge-delete. -/
theorem delete_spec_witness :
    deletedStatusRelease.Delete "rel" =
        (none, (deletedStatusRelease.canDelete "rel").2) ∧
      ∀ op ∈ (deletedStatusRelease.Delete "rel").2, op.isDelete = false :=
  (delete_spec deletedStatusRelease "rel").1 rfl

/-- Lookup after a Go map assignment. -/
theorem mapLookup_mapSet (m : DeployMap) (k k2 : String) (v : List DeployInfo) :
    mapLookup (mapSet m k v) k2 = if k = k2 then some v else mapLookup m k2 := by
  induction m with
  | nil => simp [mapSet, mapLookup]
  | cons hd rest ih =>
      obtain ⟨k0, v0⟩ := hd
      by_cases h0 : k0 = k
      · subst h0
        by_cases h2 : k0 = k2 <;> simp [mapSet, mapLookup, h2]
      · by_cases h2 : k0 = k2
        · subst h2
          have hk : ¬(k = k0) := fun hh => h0 hh.symm
          simp [mapSet, mapLookup, h0, hk]
        · simp [mapSet, mapLookup, h0, h2, ih]

/-- Lookup in the map built by the `GetCurrent` loop: the accumulated
entry extended by the names of the namespace's releases in response
order, present exactly when the accumulator had the key or the
namespace occurs in the response. -/
theorem buildReleaseMap_lookup (rels : List ReleaseRecord) (acc : DeployMap)
    (ns : String) :
    mapLookup (buildReleaseMap rels acc) ns =
      (let extra := (rels.filter fun rel => rel.nspace = ns).map
          fun rel => DeployInfo.mk rel.name
       match mapLookup acc ns with
       | none => if extra = [] then none else some extra
       | some l => some (l ++ extra)) := by
  induction rels generalizing acc with
  | nil => cases hl : mapLookup acc ns <;> simp [buildReleaseMap, hl]
  | cons rel rest ih =>
      rw [buildReleaseMap, ih]
      by_cases hns : rel.nspace = ns
      · rw [hns, mapLookup_mapSet, if_pos rfl]
        cases hl : mapLookup acc ns <;>
          simp [mapGet, hl, List.filter_cons, hns]
      · rw [mapLookup_mapSet, if_neg hns]
        cases hl : mapLookup acc ns <;>
          simp [hl, List.filter_cons, hns]

/-- C8: on a successful list, `GetCurrent` returns a mapping whose
entry at each namespace is exactly the names of that namespace's
releases in response order, and which has no entry at all for a
namespace with no release in the response. -/
theorem getCurrent_groups_by_nspace (r : Release) (rels : List ReleaseRecord)
    (h : r.client.listReleases = Except.ok rels) :
    ∃ m, r.GetCurrent = (some m, none) ∧
      ∀ ns, mapLookup m ns =
        (let names := (rels.filter fun rel => rel.nspace = ns).map
            fun rel => DeployInfo.mk rel.name
         if names = [] then none else some names) := by
  refine ⟨buildReleaseMap rels [], ?_, ?_⟩
  · simp [Release.GetCurrent, h]
  · intro ns
    have hb := buildReleaseMap_lookup rels [] ns
    simpa [mapLookup] using hb

/-- A three-release store response over two namespaces. -/
def demoRels : List ReleaseRecord :=
  [⟨"a", "ns1", StatusCode.deployed, ""⟩,
   ⟨"b", "ns2", StatusCode.deployed, ""⟩,
   ⟨"c", "ns1", StatusCode.failed, ""⟩]

/-- A release whose list operation returns `demoRels`. -/
def listOkRelease : Release :=
  stubRelease { errClient with listReleases := Except.ok demoRels }

/-- Witness for C8 at the concrete three-release response. -/
theorem getCurrent_groups_by_nspace_witness :
    ∃ m, listOkRelease.GetCurrent = (some m, none) ∧
      ∀ ns, mapLookup m ns =
        (let names := (demoRels.filter fun rel => rel.nspace = ns).map
            fun rel => DeployInfo.mk rel.name
         if names = [] then none else some names) :=
  getCurrent_groups_by_nspace listOkRelease demoRels rfl

/-- C5: `Install` with an empty chart git path fails with the
chart-path config error, which carries the resource name, before any
store operation; and with well-formed overrides and an action outside
the two valid ones it fails with the config error enumerating them,
again without any store operation (the trace is empty). -/
theorem install_config_errors (r : Release) (repoDir releaseName : String)
    (fhr : FluxHelmRelease) (action : Action) (opts : InstallOptions) :
    (fhr.spec.chartGitPath = "" →
      r.Install repoDir releaseName fhr action opts =
        ((none, some (ErrChartGitPathMissing fhr.name)), [])) ∧
    (∀ v, fhr.spec.chartGitPath ≠ "" → fhr.spec.values = Except.ok v →
      action ≠ InstallAction → action ≠ UpgradeAction →
      r.Install repoDir releaseName fhr action opts =
        ((none, some ("Valid install options: CREATE, UPDATE. Provided: "
            ++ action)), [])) := by
  constructor
  · intro h
    simp [Release.Install, h]
  · intro v h1 h2 h3 h4
    simp [Release.Install, h1, h2, h3, h4]

/-- A desired release with an empty chart git path. -/
def emptyPathFhr : FluxHelmRelease :=
  ⟨"ns", "myfhr", ⟨"", "", Except.ok ""⟩⟩

/-- A desired release with a chart path and well-formed overrides. -/
def goodFhr : FluxHelmRelease :=
  ⟨"ns", "myfhr", ⟨"", "mychart", Except.ok "vals"⟩⟩

/-- Witness for C5 at concrete inputs, including the invalid action
`DELETE`. -/
theorem install_config_errors_witness :
    (stubRelease errClient).Install "repo" "rn" emptyPathFhr InstallAction
        ⟨false, false⟩ = ((none, some (ErrChartGitPathMissing "myfhr")), []) ∧
      (stubRelease errClient).Install "repo" "rn" goodFhr "DELETE"
        ⟨false, false⟩ =
        ((none, some ("Valid install options: CREATE, UPDATE. Provided: "
            ++ "DELETE")), []) := by
  constructor
  · exact (install_config_errors (stubRelease errClient) "repo" "rn"
      emptyPathFhr InstallAction ⟨false, false⟩).1 rfl
  · exact (install_config_errors (stubRelease errClient) "repo" "rn"
      goodFhr "DELETE" ⟨false, false⟩).2 "vals" (by decide) rfl
      (by decide) (by decide)

/-- C9: the checks of `Install` run in a fixed order: the empty
chart-path error fires for every action value, and with a non-empty
chart path, malformed overrides and an invalid action the
serialization error (not the invalid-action error) is returned; both
paths issue no store operation. -/
theorem install_check_order (r : Release) (repoDir releaseName : String)
    (fhr : FluxHelmRelease) (action : Action) (opts : InstallOptions) :
    (fhr.spec.chartGitPath = "" →
      r.Install repoDir releaseName fhr action opts =
        ((none, some (ErrChartGitPathMissing fhr.name)), [])) ∧
    (∀ e, fhr.spec.chartGitPath ≠ "" → fhr.spec.values = Except.error e →
      action ≠ InstallAction → action ≠ UpgradeAction →
      r.Install repoDir releaseName fhr action opts = ((none, some e), [])) := by
  constructor
  · intro h
    simp [Release.Install, h]
  · intro e h1 h2 _ _
    simp [Release.Install, h1, h2]

/-- A desired release whose value overrides fail to serialize. -/
def badValsFhr : FluxHelmRelease :=
  ⟨"ns", "myfhr", ⟨"", "mychart", Except.error "yaml: malformed"⟩⟩

/-- Witness for C9: empty chart path with an invalid action yields the
chart-path error; malformed overrides with an invalid action yield the
serialization error. -/
theorem install_check_order_witness :
    (stubRelease errClient).Install "repo" "rn" emptyPathFhr "DELETE"
        ⟨false, false⟩ = ((none, some (ErrChartGitPathMissing "myfhr")), []) ∧
      (stubRelease errClient).Install "repo" "rn" badValsFhr "DELETE"
        ⟨false, false⟩ = ((none, some "yaml: malformed"), []) := by
  constructor
  · exact (install_check_order (stubRelease errClient) "repo" "rn"
      emptyPathFhr "DELETE" ⟨false, false⟩).1 rfl
  · exact (install_check_order (stubRelease errClient) "repo" "rn"
      badValsFhr "DELETE" ⟨false, false⟩).2 "yaml: malformed" (by decide) rfl
      (by decide) (by decide)

/-- C6: on a successful install or upgrade, the annotation step runs
exactly when the call is not a dry run (its operation appears exactly
once in the trace, never on a dry run), and the successful release
record is returned together with the annotation outcome, so an
annotation error is neither swallowed nor rolls back the release. -/
theorem install_annotation_spec (r : Release) (repoDir releaseName : String)
    (fhr : FluxHelmRelease) (opts : InstallOptions) (v : String)
    (res : ReleaseRecord)
    (hp : fhr.spec.chartGitPath ≠ "") (hv : fhr.spec.values = Except.ok v) :
    (r.client.installRelease
        (filepathJoin [repoDir, r.config.chartsPath, fhr.spec.chartGitPath])
        (if fhr.nspace = "" then "default" else fhr.nspace) v releaseName
        opts.dryRun opts.reuseName = Except.ok res →
      (r.Install repoDir releaseName fhr InstallAction opts).1 =
          (some res,
           if opts.dryRun then none
           else r.kubectl res.nspace res.manifest
              (antecedentLabelKey ++ "=" ++ fhrResourceID fhr)) ∧
        ((r.Install repoDir releaseName fhr InstallAction opts).2.filter
            Op.isAnnotate).length = if opts.dryRun then 0 else 1) ∧
    (r.client.updateRelease releaseName
        (filepathJoin [repoDir, r.config.chartsPath, fhr.spec.chartGitPath])
        v opts.dryRun = Except.ok res →
      (r.Install repoDir releaseName fhr UpgradeAction opts).1 =
          (some res,
           if opts.dryRun then none
           else r.kubectl res.nspace res.manifest
              (antecedentLabelKey ++ "=" ++ fhrResourceID fhr)) ∧
        ((r.Install repoDir releaseName fhr UpgradeAction opts).2.filter
            Op.isAnnotate).length = if opts.dryRun then 0 else 1) := by
  obtain ⟨dr, rn⟩ := opts
  constructor <;> intro hok <;> cases dr <;>
    simp_all [Release.Install, Release.annotateResources, Op.isAnnotate,
      InstallAction, UpgradeAction]

/-- The record returned by the stub store on install or upgrade. -/
def installedRecord : ReleaseRecord :=
  ⟨"rn", "default", StatusCode.deployed, "kind: Service"⟩

/-- A release whose install and upgrade operations succeed with
`installedRecord`. -/
def installOkRelease : Release :=
  stubRelease { errClient with
    installRelease := fun _ _ _ _ _ _ => Except.ok installedRecord
    updateRelease := fun _ _ _ _ => Except.ok installedRecord }

/-- A desired release with an empty namespace. -/
def fhrNoNs : FluxHelmRelease :=
  ⟨"", "myapp", ⟨"", "mychart", Except.ok "vals"⟩⟩

/-- Witness for C6: a successful non-dry-run install returns the
record, and its trace carries exactly one annotation operation. -/
theorem install_annotation_spec_witness :
    (installOkRelease.Install "repo" "rn" fhrNoNs InstallAction
        ⟨false, false⟩).1 = (some installedRecord, none) ∧
      ((installOkRelease.Install "repo" "rn" fhrNoNs InstallAction
          ⟨false, false⟩).2.filter Op.isAnnotate).length = 1 :=
  (install_annotation_spec installOkRelease "repo" "rn" fhrNoNs ⟨false, false⟩
      "vals" installedRecord (by decide) rfl).1 rfl

/-- C10: with an empty desired namespace, the store install targets the
substituted `default` namespace, while the annotation's label value is
built from the raw (empty) namespace, and the annotate call targets
the namespace of the store's release record. -/
theorem annotation_uses_raw_nspace (r : Release) (repoDir releaseName : String)
    (fhr : FluxHelmRelease) (opts : InstallOptions) (v : String)
    (res : ReleaseRecord)
    (hns : fhr.nspace = "") (hp : fhr.spec.chartGitPath ≠ "")
    (hv : fhr.spec.values = Except.ok v) (hdry : opts.dryRun = false)
    (hok : r.client.installRelease
        (filepathJoin [repoDir, r.config.chartsPath, fhr.spec.chartGitPath])
        "default" v releaseName opts.dryRun opts.reuseName = Except.ok res) :
    (r.Install repoDir releaseName fhr InstallAction opts).2 =
      [Op.installRelease
          (filepathJoin [repoDir, r.config.chartsPath, fhr.spec.chartGitPath])
          "default" v releaseName opts.dryRun opts.reuseName,
       Op.annotate res.nspace res.manifest
         (antecedentLabelKey ++ "="
            ++ MakeResourceID "" "FluxHelmRelease" fhr.name)] := by
  simp only [hdry] at hok
  simp [Release.Install, hns, hp, hv, hdry, hok, Release.annotateResources,
    fhrResourceID, InstallAction]

/-- Witness for C10 at concrete inputs. -/
theorem annotation_uses_raw_nspace_witness :
    (installOkRelease.Install "repo" "rn" fhrNoNs InstallAction
        ⟨false, false⟩).2 =
      [Op.installRelease (filepathJoin ["repo", "charts", "mychart"])
          "default" "vals" "rn" false false,
       Op.annotate "default" "kind: Service"
         (antecedentLabelKey ++ "="
            ++ MakeResourceID "" "FluxHelmRelease" "myapp")] :=
  annotation_uses_raw_nspace installOkRelease "repo" "rn" fhrNoNs
    ⟨false, false⟩ "vals" installedRecord rfl (by decide) rfl rfl rfl

/-- C2: the code returns the value of the logger call, not the store
error; with a logger whose sink succeeds, a failed list operation makes
`GetCurrent` return a nil mapping together with a nil error, which the
claim (and the spec) forbid. -/
theorem getCurrent_list_failure_nil_error :
    listFailRelease.GetCurrent = (none, none) := rfl

end HelmRelease
